import Mathlib

/-!
Verification of the SignalR hub-connection engine (SignalRClient.ts).

This file gives a shallow embedding of the hub-connection engine of
src/signalr-node-ts/src/SignalRClient.ts: the JSON value model, the
listener registry (on/off), the invocation tracker (invoke, Completion
handling, flush on transport loss), the raw-message codec (split on the
record separator 0x1E), the per-frame dispatcher, the automatic
reconnection loop, and the socket error handler of connectInternal.

State mutation is made explicit: each modelled operation returns the new
state together with a trace of observable actions (listener calls,
promise resolutions and rejections, sent frames, fired callbacks,
logged errors).  The JSON.parse builtin of JavaScript is external to the repository
and is modelled as an abstract function String -> Option Json supplied
through the environment; a failed parse (exception) is None.
-/

namespace SR

/-- JSON values, the payloads moved by the engine.  JSON numbers are
modelled as integers (all numbers used by the protocol are small
integers: the frame type tags 1, 3, 6). -/
inductive Json where
  | null
  | bool (b : Bool)
  | num (n : Int)
  | str (s : String)
  | arr (elems : List Json)
  | obj (fields : List (String × Json))
deriving Repr

/-- A listener callback registered with on().  JavaScript compares
callbacks by reference; a Handler value plays the role of one function
object.  The field records whether calling the callback throws. -/
structure Handler where
  hid : Nat
  throws : Bool
deriving DecidableEq, Repr

/-- Observable actions of the engine, in program order. -/
inductive Act where
  | handshake
  | parsedFrame (data : Json)
  | callListener (h : Handler) (args : List Json)
  | logError
  | resolvePending (id : String) (result : Option Json)
  | rejectPending (id : String) (message : Json)
  | sentFrame (ftype : Int) (target : String) (args : List Json) (invocationId : String)
  | invokeRejected (message : String)
deriving Repr

/-- Splitting a character list at every occurrence of a separator,
keeping empty pieces; the model of JavaScript String.prototype.split
with a one-character separator. -/
def splitChar (sep : Char) : List Char → List (List Char)
  | [] => [[]]
  | c :: cs =>
    if c = sep then [] :: splitChar sep cs
    else
      match splitChar sep cs with
      | [] => [[c]]
      | g :: gs => (c :: g) :: gs

/-- JavaScript raw.split(sep) for a one-character separator, as used on
the record separator 0x1E in handleRawMessage. -/
def jsSplit (sep : Char) (s : String) : List String :=
  (splitChar sep s.data).map List.asString

/-- JavaScript String.prototype.toLowerCase (on the ASCII method names
the engine uses). -/
def jsToLower (s : String) : String := List.asString (s.data.map Char.toLower)

/-- Does the pattern occur at the head of the text? -/
def startsWithList : List Char → List Char → Bool
  | [], _ => true
  | _ :: _, [] => false
  | p :: ps, c :: cs => p == c && startsWithList ps cs

/-- Does the pattern occur anywhere in the text? -/
def hasSubList (needle : List Char) : List Char → Bool
  | [] => startsWithList needle []
  | c :: cs => startsWithList needle (c :: cs) || hasSubList needle cs

/-- JavaScript String.prototype.includes. -/
def jsIncludes (s pat : String) : Bool := hasSubList pat.data s.data

/-- JavaScript property access data.k on a parsed JSON value: a field of
an object, undefined (None) otherwise. -/
def jget (j : Json) (k : String) : Option Json :=
  match j with
  | .obj fields => (fields.find? (fun p => p.1 == k)).map (fun p => p.2)
  | _ => none

/-- Numeric view of a possibly-undefined value, for the strict
comparisons data.type === 1 and data.type === 3. -/
def jnum : Option Json → Option Int
  | some (.num n) => some n
  | _ => none

/-- JavaScript truthiness of a defined value. -/
def jsTruthy : Json → Bool
  | .null => false
  | .bool b => b
  | .num n => n != 0
  | .str s => s != ""
  | .arr _ => true
  | .obj _ => true

/-- JavaScript truthiness of a possibly-undefined value, for the guard
if (data.error). -/
def jsTruthyOpt : Option Json → Bool
  | none => false
  | some j => jsTruthy j

/-- The expression that lowercases data.target with an empty-string
default: falsy values give
the empty key, strings are lowercased, a truthy non-string has no
toLowerCase method and the access throws (None). -/
def targetKey : Option Json → Option String
  | none => some ""
  | some .null => some ""
  | some (.bool false) => some ""
  | some (.bool true) => none
  | some (.num n) => if n = 0 then some "" else none
  | some (.str s) => some (jsToLower s)
  | some (.arr _) => none
  | some (.obj _) => none

/-- The Map lookup key for data.invocationId: pending entries are keyed
by strings, so a non-string id never matches any entry. -/
def invIdKey : Option Json → Option String
  | some (.str s) => some s
  | _ => none

/-- The expression ...(data.arguments || []): a falsy field spreads to
no arguments, an array spreads to its elements, a non-empty string
spreads to its characters, and spreading any other truthy value throws
(None). -/
def spreadArgs : Option Json → Option (List Json)
  | none => some []
  | some .null => some []
  | some (.bool false) => some []
  | some (.bool true) => none
  | some (.num n) => if n = 0 then some [] else none
  | some (.str s) =>
    if s = "" then some [] else some (s.data.map (fun c => Json.str (String.singleton c)))
  | some (.arr xs) => some xs
  | some (.obj _) => none

/-- JavaScript Map.prototype.get on an insertion-ordered map with
unique keys. -/
def mapGet {α : Type} : List (String × α) → String → Option α
  | [], _ => none
  | (k1, v1) :: rest, k => if k1 == k then some v1 else mapGet rest k

/-- JavaScript Map.prototype.set: replace the value at an existing key
keeping its position, otherwise append a new entry. -/
def mapSet {α : Type} : List (String × α) → String → α → List (String × α)
  | [], k, v => [(k, v)]
  | (k1, v1) :: rest, k, v =>
    if k1 == k then (k, v) :: rest else (k1, v1) :: mapSet rest k v

/-- The listener registry: lowercased method name to ordered callback
list. -/
abbrev Listeners := List (String × List Handler)

/-- HubConnection.on: ensure a (possibly empty) callback list exists
under the lowercased name, then push the new callback. -/
def onReg (l : Listeners) (methodName : String) (h : Handler) : Listeners :=
  let key := jsToLower methodName
  let l1 := if (mapGet l key).isSome then l else mapSet l key []
  match mapGet l1 key with
  | some hs => mapSet l1 key (hs ++ [h])
  | none => l1

/-- HubConnection.off: drop every callback equal (by reference) to the
given one from the entry under the lowercased name. -/
def offReg (l : Listeners) (methodName : String) (h : Handler) : Listeners :=
  let key := jsToLower methodName
  match mapGet l key with
  | some hs => mapSet l key (hs.filter (fun x => x != h))
  | none => l

/-- The environment of the dispatcher: the platform JSON.parse.  A
parse exception is None. -/
structure DispatchEnv where
  parse : String → Option Json

/-- handlers.forEach(h => h(...(data.arguments || []))): call the
callbacks in order; a spread failure or a throwing callback aborts the
iteration and lets the exception escape (the returned flag). -/
def runHandlersCalls (spread : Option (List Json)) : List Handler → List Act × Bool
  | [] => ([], false)
  | h :: rest =>
    match spread with
    | none => ([], true)
    | some args =>
      if h.throws then ([.callListener h args], true)
      else
        let r := runHandlersCalls spread rest
        (.callListener h args :: r.1, r.2)

/-- Processing of one non-empty, non-handshake fragment inside the
try/catch of handleRawMessage: parse it, then dispatch an Invocation
(type 1) to the listener registry or a Completion (type 3) to the
pending-invocation map; any exception inside the block is caught and
logged.  Returns the new pending-id list and the action trace; the
parsedFrame action records that the fragment was parsed and handled. -/
def handleFrame (env : DispatchEnv) (listeners : Listeners) (pending : List String)
    (msg : String) : List String × List Act :=
  match env.parse msg with
  | none => (pending, [.logError])
  | some data =>
    if jnum (jget data "type") = some 1 then
      match targetKey (jget data "target") with
      | none => (pending, [.parsedFrame data, .logError])
      | some key =>
        match mapGet listeners key with
        | none => (pending, [.parsedFrame data])
        | some hs =>
          let r := runHandlersCalls (spreadArgs (jget data "arguments")) hs
          (pending, .parsedFrame data :: r.1 ++ (if r.2 then [.logError] else []))
    else if jnum (jget data "type") = some 3 then
      match invIdKey (jget data "invocationId") with
      | none => (pending, [.parsedFrame data])
      | some id =>
        if pending.contains id then
          (pending.filter (fun x => x != id),
           [.parsedFrame data,
            if jsTruthyOpt (jget data "error") then
              .rejectPending id ((jget data "error").getD Json.null)
            else
              .resolvePending id (jget data "result")])
        else (pending, [.parsedFrame data])
    else (pending, [.parsedFrame data])

/-- The fragment loop of handleRawMessage: skip empty fragments, treat
the literal handshake frame specially, hand every other fragment to the
per-frame handler. -/
def processFragments (env : DispatchEnv) (listeners : Listeners) :
    List String → List String → List String × List Act
  | pending, [] => (pending, [])
  | pending, msg :: rest =>
    if msg = "" then processFragments env listeners pending rest
    else if msg = "\x7b\x7d" then
      let r := processFragments env listeners pending rest
      (r.1, Act.handshake :: r.2)
    else
      let r1 := handleFrame env listeners pending msg
      let r2 := processFragments env listeners r1.1 rest
      (r2.1, r1.2 ++ r2.2)

/-- The mutable per-connection state of HubConnection that the modelled
operations touch: whether a transport socket is open, the invocation id
counter, the pending invocation ids, and the listener registry. -/
structure Conn where
  socketOpen : Bool
  invocationId : Nat
  pending : List String
  listeners : Listeners

/-- HubConnection.handleRawMessage: split the raw socket text on the
record separator and run the fragment loop. -/
def handleRawMessage (env : DispatchEnv) (st : Conn) (raw : String) : Conn × List Act :=
  let r := processFragments env st.listeners st.pending (jsSplit '\x1e' raw)
  ({ st with pending := r.1 }, r.2)

/-- The decimal rendering of the invocation counter, the model of
JavaScript Number.prototype.toString() in invoke. -/
def idOf (n : Nat) : String := Nat.repr n

/-- HubConnection.invoke: with no open socket, reject immediately and
send nothing; otherwise increment the counter, register the pending
invocation under the rendered id, and send exactly one Invocation
frame. -/
def invoke (st : Conn) (methodName : String) (args : List Json) : Conn × List Act :=
  if !st.socketOpen then
    (st, [.invokeRejected ("Cannot invoke \x27" ++ methodName ++ "\x27: Socket is not open.")])
  else
    ({ st with
        invocationId := st.invocationId + 1,
        pending := st.pending ++ [idOf (st.invocationId + 1)] },
     [.sentFrame 1 methodName args (idOf (st.invocationId + 1))])

/-- HubConnection.cleanup: reject every pending invocation with the
connection-closed error, then clear the tracker. -/
def cleanup (st : Conn) : Conn × List Act :=
  ({ st with pending := [] },
   st.pending.map (fun id => Act.rejectPending id (Json.str "Connection closed")))

/-- External stimuli of one connection. -/
inductive ConnOp where
  | opInvoke (method : String) (args : List Json)
  | opRaw (raw : String)
  | opSocketClosed
  | opSocketOpened
  | opOn (method : String) (h : Handler)
  | opOff (method : String) (h : Handler)

/-- One step of the connection under a stimulus. -/
def step (env : DispatchEnv) (st : Conn) : ConnOp → Conn × List Act
  | .opInvoke m args => invoke st m args
  | .opRaw raw => handleRawMessage env st raw
  | .opSocketClosed =>
    let r := cleanup st
    ({ r.1 with socketOpen := false }, r.2)
  | .opSocketOpened => ({ st with socketOpen := true }, [])
  | .opOn m h => ({ st with listeners := onReg st.listeners m h }, [])
  | .opOff m h => ({ st with listeners := offReg st.listeners m h }, [])

/-- Run a list of stimuli, concatenating the traces. -/
def run (env : DispatchEnv) (st : Conn) : List ConnOp → Conn × List Act
  | [] => (st, [])
  | op :: ops =>
    let r1 := step env st op
    let r2 := run env r1.1 ops
    (r2.1, r1.2 ++ r2.2)

/-- The invocation ids carried by the Invocation frames of a trace. -/
def sentIds (acts : List Act) : List String :=
  acts.filterMap (fun a =>
    match a with
    | .sentFrame _ _ _ id => some id
    | _ => none)

/-- Environment of the reconnection loop: whether stop() arrives during
the sleep at a given attempt index, and whether the full negotiate and
connect cycle at a given index succeeds. -/
structure RcEnv where
  stopDuringSleep : Nat → Bool
  attemptOk : Nat → Bool

/-- Observable events of handleAutomaticReconnect. -/
inductive RcEvent where
  | reconnectingFired
  | slept (ms : Nat)
  | attempt (idx : Nat)
  | closeFired (message : String)
deriving DecidableEq, Repr

/-- The for-loop of handleAutomaticReconnect over the remaining delays:
at the head of each iteration return if stop() has been called, then
sleep (during which stop() may arrive), then attempt a full connect
cycle, returning on success; when the delays are exhausted mark the
connection stopped and fire the close callbacks.  Returns the event
list, the final stopped flag, and whether a cycle succeeded. -/
def rcLoop (env : RcEnv) : List Nat → Nat → Bool → List RcEvent × Bool × Bool
  | [], _, _ => ([.closeFired "All reconnect attempts failed."], true, false)
  | d :: rest, idx, stopped =>
    if stopped then ([], stopped, false)
    else
      let stopped1 := stopped || env.stopDuringSleep idx
      if env.attemptOk idx then
        ([.slept d, .attempt idx], stopped1, true)
      else
        let r := rcLoop env rest (idx + 1) stopped1
        (.slept d :: .attempt idx :: r.1, r.2.1, r.2.2)

/-- HubConnection.handleAutomaticReconnect: with no configured delays
fire the close callbacks at once; otherwise fire the reconnecting
callbacks and run the retry loop. -/
def handleAutomaticReconnect (env : RcEnv) (delays : List Nat) (stopped : Bool) :
    List RcEvent × Bool × Bool :=
  if delays.isEmpty then ([.closeFired "Connection dropped"], stopped, false)
  else
    let r := rcLoop env delays 0 stopped
    (.reconnectingFired :: r.1, r.2.1, r.2.2)

/-- Outcome of the ws.onerror handler of connectInternal. -/
inductive WsErrAct where
  | rejectConnect (message : String)
  | logOnly (message : String)
deriving DecidableEq, Repr

/-- The ws.onerror handler of connectInternal: reject the connect
promise only on a non-reconnect attempt with no connection id recorded,
decorating the generic non-101 message; otherwise only log. -/
def wsOnError (isReconnect : Bool) (connectionId : Option String) (msg : String) : WsErrAct :=
  if !isReconnect && connectionId.isNone then
    if jsIncludes msg "non-101" then
      .rejectConnect (msg ++ " (See logs above for Status Code)")
    else .rejectConnect msg
  else .logOnly msg

/-- The negotiate response body used by connectInternal. -/
structure NegotiationResponse where
  url : Option String
  accessToken : Option String
  connectionId : Option String

/-- The connection-id update of connectInternal after a negotiate
round-trip: when the response carries no redirect url but a
connectionId, that id is stored on the connection before the WebSocket
is created. -/
def applyNegotiation (connectionId : Option String) (neg : NegotiationResponse) :
    Option String :=
  match neg.url with
  | some _ => connectionId
  | none =>
    match neg.connectionId with
    | some c => some c
    | none => connectionId

/-- Reference rendering of a natural number via `Nat.digits`. -/
def digitsRender (n : Nat) : List Char :=
  if n = 0 then ['0'] else ((Nat.digits 10 n).map Nat.digitChar).reverse

/-! Concrete fixtures used by the claim theorems and witnesses below:
small environments, frames, listener registries and reconnect
environments. -/

def rcCexEnv : RcEnv := ⟨fun i => i == 0, fun _ => false⟩

def rcWitEnv : RcEnv := ⟨fun i => i == 0, fun _ => false⟩

def invData : Json :=
  Json.obj [("type", Json.num 1), ("target", Json.str "Foo"), ("arguments", Json.arr [])]

def cListeners2 : Listeners := [("foo", [⟨1, true⟩, ⟨2, false⟩])]

def cEnv2 : DispatchEnv := ⟨fun s => if s = "inv" then some invData else none⟩

def compData : Json :=
  Json.obj [("type", Json.num 3), ("invocationId", Json.str "7"), ("result", Json.num 42)]

def cEnv5 : DispatchEnv := ⟨fun s => if s = "comp" then some compData else none⟩

def pingJson : Json := Json.obj [("type", Json.num 6)]

def cEnvPing : DispatchEnv := ⟨fun s => if s = "\x7b\"type\":6\x7d" then some pingJson else none⟩

def invData8 : Json := Json.obj [("type", Json.num 1), ("target", Json.str "FOO")]

def cEnv8 : DispatchEnv := ⟨fun s => if s = "inv8" then some invData8 else none⟩

def compData9 : Json :=
  Json.obj [("type", Json.num 3), ("invocationId", Json.str "9"), ("error", Json.str "x")]

def cEnv9 : DispatchEnv := ⟨fun s => if s = "comp9" then some compData9 else none⟩

def invData10 : Json := Json.obj [("type", Json.num 1), ("target", Json.str "Bar")]

def cEnv10 : DispatchEnv := ⟨fun s => if s = "inv10" then some invData10 else none⟩

def cL10 : Listeners := [("bar", [⟨3, false⟩])]

theorem mapGet_mapSet_self {α : Type} :
    ∀ (l : List (String × α)) (k : String) (v : α), mapGet (mapSet l k v) k = some v := by
  intro l k v
  induction l with
  | nil => simp [mapGet, mapSet]
  | cons p rest ih =>
    obtain ⟨k1, v1⟩ := p
    by_cases h : (k1 == k) = true
    · simp [mapSet, mapGet, h]
    · simp [mapSet, mapGet, h, ih]

theorem onReg_get (l : Listeners) (m : String) (cb : Handler) :
    mapGet (onReg l m cb) (jsToLower m) =
      some (((mapGet l (jsToLower m)).getD []) ++ [cb]) := by
  unfold onReg
  cases h : mapGet l (jsToLower m) with
  | none => simp [h, mapGet_mapSet_self]
  | some hs => simp [h, mapGet_mapSet_self]

theorem off_on_get (l : Listeners) (m : String) (cb : Handler) :
    mapGet (offReg (onReg l m cb) m cb) (jsToLower m) =
      some ((((mapGet l (jsToLower m)).getD []) ++ [cb]).filter (fun x => x != cb)) := by
  simp only [offReg, onReg_get, mapGet_mapSet_self]

theorem not_mem_filter_ne_self (cb : Handler) (hs : List Handler) :
    cb ∉ hs.filter (fun x => x != cb) := by
  intro h
  have := List.of_mem_filter h
  simp at this

theorem calls_mem :
    ∀ (s : Option (List Json)) (hs : List Handler) (h : Handler) (args : List Json),
      Act.callListener h args ∈ (runHandlersCalls s hs).1 → h ∈ hs := by
  intro s hs
  induction hs with
  | nil => intro h args hmem; simp [runHandlersCalls] at hmem
  | cons g rest ih =>
    intro h args hmem
    cases s with
    | none => simp [runHandlersCalls] at hmem
    | some as =>
      by_cases hg : g.throws = true
      · simp [runHandlersCalls, hg] at hmem
        simp [hmem.1]
      · simp only [runHandlersCalls, hg, Bool.false_eq_true, if_false, List.mem_cons] at hmem
        rcases hmem with hmem | hmem
        · simp only [Act.callListener.injEq] at hmem
          simp [hmem.1]
        · exact List.mem_cons_of_mem _ (ih h args hmem)

theorem runHandlers_ok :
    ∀ (hs : List Handler) (args : List Json),
      (∀ g ∈ hs, g.throws = false) →
      runHandlersCalls (some args) hs = (hs.map (fun g => Act.callListener g args), false) := by
  intro hs args h
  induction hs with
  | nil => rfl
  | cons g rest ih =>
    have hg : g.throws = false := h g (by simp)
    simp [runHandlersCalls, hg, ih (fun x hx => h x (by simp [hx]))]

theorem runHandlers_throw :
    ∀ (pre : List Handler) (h : Handler) (post : List Handler) (args : List Json),
      (∀ g ∈ pre, g.throws = false) → h.throws = true →
      runHandlersCalls (some args) (pre ++ h :: post) =
        (pre.map (fun g => Act.callListener g args) ++ [Act.callListener h args], true) := by
  intro pre
  induction pre with
  | nil => intro h post args _ hh; simp [runHandlersCalls, hh]
  | cons g rest ih =>
    intro h post args hp hh
    have hg : g.throws = false := hp g (by simp)
    simp [runHandlersCalls, hg, ih h post args (fun x hx => hp x (by simp [hx])) hh]

theorem sentIds_append (a b : List Act) : sentIds (a ++ b) = sentIds a ++ sentIds b := by
  simp [sentIds]

theorem sentIds_runHandlers (s : Option (List Json)) (hs : List Handler) :
    sentIds (runHandlersCalls s hs).1 = [] := by
  induction hs with
  | nil => rfl
  | cons g rest ih =>
    cases s with
    | none => rfl
    | some as =>
      by_cases hg : g.throws = true
      · simp [runHandlersCalls, hg, sentIds]
      · simpa [runHandlersCalls, hg, sentIds] using ih

@[simp] theorem sentIds_nil : sentIds [] = [] := rfl

@[simp] theorem sentIds_cons_handshake (acts : List Act) :
    sentIds (Act.handshake :: acts) = sentIds acts := rfl

@[simp] theorem sentIds_cons_parsed (d : Json) (acts : List Act) :
    sentIds (Act.parsedFrame d :: acts) = sentIds acts := rfl

@[simp] theorem sentIds_cons_call (h : Handler) (args : List Json) (acts : List Act) :
    sentIds (Act.callListener h args :: acts) = sentIds acts := rfl

@[simp] theorem sentIds_cons_log (acts : List Act) :
    sentIds (Act.logError :: acts) = sentIds acts := rfl

@[simp] theorem sentIds_cons_resolve (id : String) (r : Option Json) (acts : List Act) :
    sentIds (Act.resolvePending id r :: acts) = sentIds acts := rfl

@[simp] theorem sentIds_cons_reject (id : String) (m : Json) (acts : List Act) :
    sentIds (Act.rejectPending id m :: acts) = sentIds acts := rfl

@[simp] theorem sentIds_cons_invokeRejected (m : String) (acts : List Act) :
    sentIds (Act.invokeRejected m :: acts) = sentIds acts := rfl

@[simp] theorem sentIds_cons_sent (t : Int) (tg : String) (a : List Json) (i : String)
    (acts : List Act) : sentIds (Act.sentFrame t tg a i :: acts) = i :: sentIds acts := rfl

@[simp] theorem sentIds_app (a b : List Act) : sentIds (a ++ b) = sentIds a ++ sentIds b := by
  simp [sentIds]

@[simp] theorem sentIds_map_reject (l : List String) (m : Json) :
    sentIds (l.map (fun id => Act.rejectPending id m)) = [] := by
  induction l with
  | nil => rfl
  | cons x xs ih => simpa using ih

theorem sentIds_handleFrame (env : DispatchEnv) (L : Listeners) (p : List String)
    (msg : String) : sentIds (handleFrame env L p msg).2 = [] := by
  unfold handleFrame
  cases hp : env.parse msg with
  | none => simp [sentIds]
  | some data =>
    dsimp only
    by_cases h1 : jnum (jget data "type") = some 1
    · rw [if_pos h1]
      cases ht : targetKey (jget data "target") with
      | none => simp [ht, sentIds]
      | some key =>
        cases hm : mapGet L key with
        | none => simp [ht, hm, sentIds]
        | some hs =>
          by_cases hr : (runHandlersCalls (spreadArgs (jget data "arguments")) hs).2 = true <;>
            simp [ht, hm, hr, sentIds_runHandlers]
    · rw [if_neg h1]
      by_cases h3 : jnum (jget data "type") = some 3
      · rw [if_pos h3]
        cases hi : invIdKey (jget data "invocationId") with
        | none => simp [hi, sentIds]
        | some id =>
          by_cases hc : id ∈ p <;>
            by_cases he : jsTruthyOpt (jget data "error") = true <;>
              simp [hi, hc, he, sentIds]
      · rw [if_neg h3]
        simp [sentIds]

theorem sentIds_processFragments (env : DispatchEnv) (L : Listeners) :
    ∀ (frags : List String) (p : List String),
      sentIds (processFragments env L p frags).2 = [] := by
  intro frags
  induction frags with
  | nil => intro p; rfl
  | cons msg rest ih =>
    intro p
    by_cases h0 : msg = ""
    · simp [processFragments, h0, ih]
    · by_cases h1 : msg = "\x7b\x7d"
      · simp [processFragments, h0, h1, ih]
      · simp [processFragments, h0, h1, sentIds_handleFrame, ih]

theorem step_invocationId_le (env : DispatchEnv) (st : Conn) (op : ConnOp) :
    st.invocationId ≤ (step env st op).1.invocationId := by
  cases op with
  | opInvoke m args =>
    by_cases h : st.socketOpen = true
    · simp [step, invoke, h]
    · simp only [Bool.not_eq_true] at h
      simp [step, invoke, h]
  | opRaw raw => exact Nat.le.refl
  | opSocketClosed => exact Nat.le.refl
  | opSocketOpened => exact Nat.le.refl
  | opOn m h => exact Nat.le.refl
  | opOff m h => exact Nat.le.refl

theorem step_sent_char (env : DispatchEnv) (st : Conn) (op : ConnOp) :
    sentIds (step env st op).2 = [] ∨
      (sentIds (step env st op).2 = [idOf (st.invocationId + 1)] ∧
        (step env st op).1.invocationId = st.invocationId + 1) := by
  cases op with
  | opInvoke m args =>
    by_cases h : st.socketOpen = true
    · right
      constructor <;> simp [step, invoke, h]
    · left
      simp only [Bool.not_eq_true] at h
      simp [step, invoke, h]
  | opRaw raw => left; simp [step, handleRawMessage, sentIds_processFragments]
  | opSocketClosed => left; simp [step, cleanup]
  | opSocketOpened => left; rfl
  | opOn m h => left; rfl
  | opOff m h => left; rfl

theorem run_invocationId_le (env : DispatchEnv) :
    ∀ (ops : List ConnOp) (st : Conn), st.invocationId ≤ (run env st ops).1.invocationId := by
  intro ops
  induction ops with
  | nil => intro st; exact Nat.le.refl
  | cons op rest ih =>
    intro st
    exact le_trans (step_invocationId_le env st op) (ih (step env st op).1)

theorem run_sent_gt (env : DispatchEnv) :
    ∀ (ops : List ConnOp) (st : Conn) (id : String), id ∈ sentIds (run env st ops).2 →
      ∃ k, id = idOf k ∧ st.invocationId < k := by
  intro ops
  induction ops with
  | nil => intro st id h; simp [run] at h
  | cons op rest ih =>
    intro st id h
    simp only [run, sentIds_app, List.mem_append] at h
    rcases h with h | h
    · rcases step_sent_char env st op with hs | ⟨hs, hctr⟩
      · rw [hs] at h; simp at h
      · rw [hs] at h
        simp at h
        exact ⟨st.invocationId + 1, h, Nat.lt_succ_self _⟩
    · obtain ⟨k, hk, hlt⟩ := ih (step env st op).1 id h
      exact ⟨k, hk, lt_of_le_of_lt (step_invocationId_le env st op) hlt⟩

/-- `Nat.toDigitsCore` threads its accumulator on the right. -/
theorem toDigitsCore_acc (b : Nat) :
    ∀ (f n : Nat) (acc : List Char),
      Nat.toDigitsCore b f n acc = Nat.toDigitsCore b f n [] ++ acc := by
  intro f
  induction f with
  | zero => intro n acc; simp [Nat.toDigitsCore]
  | succ f ih =>
    intro n acc
    simp only [Nat.toDigitsCore]
    by_cases h : n / b = 0
    · simp [h]
    · simp only [h, if_false]
      rw [ih (n / b) (Nat.digitChar (n % b) :: acc), ih (n / b) [Nat.digitChar (n % b)]]
      simp

theorem toDigitsCore_eq_digitsRender :
    ∀ (f n : Nat), n < f → Nat.toDigitsCore 10 f n [] = digitsRender n := by
  intro f
  induction f with
  | zero => intro n h; omega
  | succ f ih =>
    intro n h
    simp only [Nat.toDigitsCore]
    by_cases h0 : n / 10 = 0
    · have hn10 : n < 10 := by omega
      by_cases hn : n = 0
      · subst hn; simp [digitsRender, h0, show Nat.digitChar 0 = '0' from rfl]
      · simp only [h0, if_true, digitsRender, if_neg hn]
        rw [Nat.digits_def' (by norm_num : (1:Nat) < 10) (Nat.pos_of_ne_zero hn), h0]
        simp
    · have hn : n ≠ 0 := by
        intro e; subst e; simp at h0
      have hlt : n / 10 < f := by
        have h1 : n / 10 < n := Nat.div_lt_self (Nat.pos_of_ne_zero hn) (by norm_num)
        omega
      simp only [h0, if_false]
      rw [toDigitsCore_acc, ih (n / 10) hlt]
      simp only [digitsRender, if_neg hn, if_neg h0]
      rw [Nat.digits_def' (by norm_num : (1:Nat) < 10) (Nat.pos_of_ne_zero hn)]
      simp

theorem toDigits_eq_digitsRender (n : Nat) :
    Nat.toDigits 10 n = digitsRender n :=
  toDigitsCore_eq_digitsRender (n + 1) n (Nat.lt_succ_self n)

theorem digitChar_inj10 :
    ∀ a, a < 10 → ∀ b, b < 10 → Nat.digitChar a = Nat.digitChar b → a = b := by
  decide

theorem map_digitChar_inj :
    ∀ (l1 l2 : List Nat), (∀ x ∈ l1, x < 10) → (∀ x ∈ l2, x < 10) →
      l1.map Nat.digitChar = l2.map Nat.digitChar → l1 = l2 := by
  intro l1
  induction l1 with
  | nil =>
    intro l2 _ _ h
    cases l2 with
    | nil => rfl
    | cons y ys => simp at h
  | cons x xs ih =>
    intro l2 h1 h2 h
    cases l2 with
    | nil => simp at h
    | cons y ys =>
      simp only [List.map_cons, List.cons.injEq] at h
      obtain ⟨hxy, ht⟩ := h
      have hx := digitChar_inj10 x (h1 x (by simp)) y (h2 y (by simp)) hxy
      have hxs := ih ys (fun z hz => h1 z (by simp [hz])) (fun z hz => h2 z (by simp [hz])) ht
      rw [hx, hxs]

theorem digitsRender_inj : ∀ m n : Nat, digitsRender m = digitsRender n → m = n := by
  have key : ∀ n : Nat, n ≠ 0 → digitsRender n ≠ ['0'] := by
    intro n hn hcon
    simp only [digitsRender, if_neg hn] at hcon
    have h1 : (Nat.digits 10 n).map Nat.digitChar = ['0'] := by
      have := congrArg List.reverse hcon
      simpa using this
    have h2 : ∃ d, Nat.digits 10 n = [d] ∧ Nat.digitChar d = '0' := by
      cases hd : Nat.digits 10 n with
      | nil => rw [hd] at h1; simp at h1
      | cons d tl =>
        rw [hd] at h1
        cases tl with
        | nil =>
          simp only [List.map_cons, List.map_nil, List.cons.injEq] at h1
          exact ⟨d, rfl, h1.1⟩
        | cons e tl2 => simp at h1
    obtain ⟨d, hd, hdc⟩ := h2
    have hdlt : d < 10 := Nat.digits_lt_base (by norm_num) (by rw [hd]; simp)
    have hd0 : d = 0 := digitChar_inj10 d hdlt 0 (by norm_num) (by rw [hdc]; rfl)
    subst hd0
    have h6 := congrArg (Nat.ofDigits 10) hd
    rw [Nat.ofDigits_digits, Nat.ofDigits_singleton] at h6
    exact hn (by exact_mod_cast h6)
  intro m n h
  by_cases hm : m = 0
  · subst hm
    by_cases hn : n = 0
    · rw [hn]
    · exfalso
      apply key n hn
      rw [← h]
      simp [digitsRender]
  · by_cases hn : n = 0
    · subst hn
      exfalso
      apply key m hm
      rw [h]
      simp [digitsRender]
    · simp only [digitsRender, if_neg hm, if_neg hn] at h
      have h1 : (Nat.digits 10 m).map Nat.digitChar = (Nat.digits 10 n).map Nat.digitChar := by
        have := congrArg List.reverse h
        simpa using this
      have h2 : Nat.digits 10 m = Nat.digits 10 n :=
        map_digitChar_inj _ _ (fun x hx => Nat.digits_lt_base (by norm_num) hx)
          (fun x hx => Nat.digits_lt_base (by norm_num) hx) h1
      have := congrArg (Nat.ofDigits 10) h2
      simpa [Nat.ofDigits_digits] using this

theorem idOf_injective : Function.Injective idOf := by
  intro m n h
  have hd : Nat.toDigits 10 m = Nat.toDigits 10 n := by
    have : (Nat.toDigits 10 m).asString = (Nat.toDigits 10 n).asString := h
    exact congrArg String.data this
  apply digitsRender_inj
  rw [← toDigits_eq_digitsRender, ← toDigits_eq_digitsRender, hd]

theorem run_sentIds_nodup (env : DispatchEnv) :
    ∀ (ops : List ConnOp) (st : Conn), (sentIds (run env st ops).2).Nodup := by
  intro ops
  induction ops with
  | nil => intro st; simp [run]
  | cons op rest ih =>
    intro st
    simp only [run, sentIds_app]
    rw [List.nodup_append]
    refine ⟨?_, ih (step env st op).1, ?_⟩
    · rcases step_sent_char env st op with h | ⟨h, _⟩ <;> simp [h]
    · rcases step_sent_char env st op with h | ⟨h, hctr⟩
      · simp [h, List.Disjoint]
      · rw [h]
        intro a ha hb
        simp only [List.mem_singleton] at ha
        subst ha
        obtain ⟨k, hk, hlt⟩ := run_sent_gt env rest (step env st op).1 _ hb
        rw [hctr] at hlt
        have hkk : st.invocationId + 1 = k := idOf_injective hk
        omega

theorem handleFrame_dispatch (env : DispatchEnv) (L : Listeners) (p : List String)
    (msg : String) (data : Json) (key : String) (hs : List Handler)
    (hp : env.parse msg = some data)
    (ht : jnum (jget data "type") = some 1)
    (hk : targetKey (jget data "target") = some key)
    (hm : mapGet L key = some hs) :
    handleFrame env L p msg =
      (p, Act.parsedFrame data ::
        (runHandlersCalls (spreadArgs (jget data "arguments")) hs).1 ++
        (if (runHandlersCalls (spreadArgs (jget data "arguments")) hs).2 then [Act.logError]
         else [])) := by
  unfold handleFrame
  rw [hp]
  dsimp only
  rw [if_pos ht, hk]
  dsimp only
  rw [hm]

theorem handleFrame_completion (env : DispatchEnv) (L : Listeners) (p : List String)
    (msg : String) (data : Json) (id : String)
    (hp : env.parse msg = some data)
    (ht : jnum (jget data "type") = some 3)
    (hi : invIdKey (jget data "invocationId") = some id)
    (hmem : id ∈ p) :
    handleFrame env L p msg =
      (p.filter (fun x => x != id),
       [Act.parsedFrame data,
        if jsTruthyOpt (jget data "error") then
          Act.rejectPending id ((jget data "error").getD Json.null)
        else Act.resolvePending id (jget data "result")]) := by
  have h1ne : ¬jnum (jget data "type") = some 1 := by simp [ht]
  unfold handleFrame
  rw [hp]
  dsimp only
  rw [if_neg h1ne, if_pos ht, hi]
  dsimp only
  simp [hmem]

theorem handleFrame_completion_miss (env : DispatchEnv) (L : Listeners) (p : List String)
    (msg : String) (data : Json) (id : String)
    (hp : env.parse msg = some data)
    (ht : jnum (jget data "type") = some 3)
    (hi : invIdKey (jget data "invocationId") = some id)
    (hmem : id ∉ p) :
    handleFrame env L p msg = (p, [Act.parsedFrame data]) := by
  have h1ne : ¬jnum (jget data "type") = some 1 := by simp [ht]
  unfold handleFrame
  rw [hp]
  dsimp only
  rw [if_neg h1ne, if_pos ht, hi]
  dsimp only
  simp [hmem]

theorem handleFrame_completion_nostring (env : DispatchEnv) (L : Listeners)
    (p : List String) (msg : String) (data : Json)
    (hp : env.parse msg = some data)
    (ht : jnum (jget data "type") = some 3)
    (hi : invIdKey (jget data "invocationId") = none) :
    handleFrame env L p msg = (p, [Act.parsedFrame data]) := by
  have h1ne : ¬jnum (jget data "type") = some 1 := by simp [ht]
  unfold handleFrame
  rw [hp]
  dsimp only
  rw [if_neg h1ne, if_pos ht, hi]

theorem count_filter_ne (id : String) :
    ∀ (p : List String) (x : String), x ≠ id →
      (p.filter (fun y => y != id)).count x = p.count x := by
  intro p x hx
  induction p with
  | nil => rfl
  | cons a as ih =>
    by_cases ha : a = id
    · subst ha
      simp [List.filter_cons, List.count_cons, hx, ih]
    · simp [List.filter_cons, List.count_cons, ha, ih]

theorem processFragments_cons_frame (env : DispatchEnv) (L : Listeners) (p : List String)
    (msg : String) (rest : List String) (h0 : msg ≠ "") (h1 : msg ≠ "\x7b\x7d") :
    processFragments env L p (msg :: rest) =
      ((processFragments env L (handleFrame env L p msg).1 rest).1,
       (handleFrame env L p msg).2 ++ (processFragments env L (handleFrame env L p msg).1 rest).2) := by
  simp only [processFragments]
  rw [if_neg h0, if_neg h1]

theorem processFragments_cons_empty (env : DispatchEnv) (L : Listeners) (p : List String)
    (rest : List String) :
    processFragments env L p ("" :: rest) = processFragments env L p rest := by
  simp [processFragments]

theorem handleFrame_call_mem (env : DispatchEnv) (L : Listeners) (p : List String)
    (msg : String) (cb : Handler) (args : List Json)
    (hmem : Act.callListener cb args ∈ (handleFrame env L p msg).2) :
    ∃ data key hs, env.parse msg = some data ∧
      targetKey (jget data "target") = some key ∧ mapGet L key = some hs ∧ cb ∈ hs := by
  revert hmem
  unfold handleFrame
  cases hp : env.parse msg with
  | none => intro hmem; simp at hmem
  | some data =>
    dsimp only
    by_cases h1 : jnum (jget data "type") = some 1
    · rw [if_pos h1]
      cases ht : targetKey (jget data "target") with
      | none => intro hmem; simp [ht] at hmem
      | some key =>
        cases hm : mapGet L key with
        | none => intro hmem; simp [ht, hm] at hmem
        | some hs =>
          intro hmem
          refine ⟨data, key, hs, rfl, ht, hm, ?_⟩
          simp only [hm] at hmem
          rcases List.mem_cons.mp hmem with he | hmem2
          · exact absurd he (by simp)
          · rcases List.mem_append.mp hmem2 with hin | hif
            · exact calls_mem _ hs cb args hin
            · by_cases hr : (runHandlersCalls (spreadArgs (jget data "arguments")) hs).2 = true
              · rw [if_pos hr] at hif
                simp at hif
              · rw [if_neg hr] at hif
                simp at hif
    · rw [if_neg h1]
      by_cases h3 : jnum (jget data "type") = some 3
      · rw [if_pos h3]
        cases hi : invIdKey (jget data "invocationId") with
        | none => intro hmem; simp [hi] at hmem
        | some id =>
          by_cases hc : id ∈ p <;>
            by_cases he : jsTruthyOpt (jget data "error") = true <;>
              (intro hmem; simp [hi, hc, he] at hmem)
      · rw [if_neg h3]
        intro hmem
        simp at hmem

/-- C1, counterexample.  With a single configured delay, stop() arriving
during the sleep of attempt 0 neither prevents the connection attempt
that follows the sleep nor keeps the loop from firing the close
callbacks when that attempt fails: the isStopped check of
handleAutomaticReconnect runs at the head of each iteration, before the
sleep, so a stop landing mid-sleep is only seen one iteration later. -/
theorem stop_mid_delay_cex :
    rcCexEnv.stopDuringSleep 0 = true ∧
    RcEvent.attempt 0 ∈ (handleAutomaticReconnect rcCexEnv [0] false).1 ∧
    RcEvent.closeFired "All reconnect attempts failed." ∈
      (handleAutomaticReconnect rcCexEnv [0] false).1 := by
  refine ⟨rfl, ?_, ?_⟩ <;> decide

/-- C1, amended.  A stop() observed at the head of a reconnect-loop
iteration aborts the loop with no further attempt and no close
callbacks; a stop() arriving during a sleep does not cancel the attempt
immediately following that sleep, and takes effect only at the head of
the next iteration (silently, provided a later delay remains). -/
theorem stop_checked_at_loop_head :
    (∀ (env : RcEnv) (d : Nat) (rest : List Nat) (idx : Nat),
      rcLoop env (d :: rest) idx true = ([], true, false)) ∧
    (∀ (env : RcEnv) (d d2 : Nat) (rest : List Nat) (idx : Nat),
      env.stopDuringSleep idx = true → env.attemptOk idx = false →
      rcLoop env (d :: d2 :: rest) idx false =
        ([.slept d, .attempt idx], true, false)) := by
  constructor
  · intro env d rest idx
    simp [rcLoop]
  · intro env d d2 rest idx hstop hfail
    simp [rcLoop, hstop, hfail]

/-- Witness for the amended C1 statement at a concrete environment. -/
theorem stop_checked_at_loop_head_witness :
    rcLoop rcWitEnv [0, 2000] 0 false = ([.slept 0, .attempt 0], true, false) :=
  stop_checked_at_loop_head.2 rcWitEnv 0 2000 [] 0 rfl rfl

/-- C2, counterexample.  Two listeners are registered for the target of
the frame; the first throws.  The dispatch loop has no per-callback
try/catch, so the exception aborts the forEach: the second listener is
never called for this frame (the exception is caught and logged by the
per-frame handler). -/
theorem listener_throw_cex :
    mapGet cListeners2 "foo" = some [⟨1, true⟩, ⟨2, false⟩] ∧
    handleFrame cEnv2 cListeners2 [] "inv" =
      ([], [.parsedFrame invData, .callListener ⟨1, true⟩ [], .logError]) ∧
    Act.callListener ⟨2, false⟩ [] ∉ (handleFrame cEnv2 cListeners2 [] "inv").2 := by
  refine ⟨rfl, rfl, ?_⟩
  intro hmem
  have h2 : Act.callListener ⟨2, false⟩ [] ∈
      [Act.parsedFrame invData, Act.callListener ⟨1, true⟩ [], Act.logError] := hmem
  simp at h2

/-- C2, amended.  An exception thrown by a listener callback is caught
by the per-frame handler and logged: the callbacks before it run, the
remaining callbacks for that same frame are skipped, the connection
state is untouched, and later frames of the same socket message are
still processed. -/
theorem listener_throw_caught :
    ∀ (env : DispatchEnv) (L : Listeners) (p : List String) (msg : String) (data : Json)
      (key : String) (pre : List Handler) (h : Handler) (post : List Handler)
      (args : List Json) (rest : List String),
      env.parse msg = some data →
      jnum (jget data "type") = some 1 →
      targetKey (jget data "target") = some key →
      mapGet L key = some (pre ++ h :: post) →
      (∀ g ∈ pre, g.throws = false) →
      h.throws = true →
      spreadArgs (jget data "arguments") = some args →
      msg ≠ "" → msg ≠ "\x7b\x7d" →
      handleFrame env L p msg =
        (p, Act.parsedFrame data ::
          (pre.map (fun g => Act.callListener g args) ++
            [Act.callListener h args, Act.logError])) ∧
      processFragments env L p (msg :: rest) =
        ((processFragments env L p rest).1,
         (Act.parsedFrame data ::
           (pre.map (fun g => Act.callListener g args) ++
             [Act.callListener h args, Act.logError])) ++
           (processFragments env L p rest).2) := by
  intro env L p msg data key pre h post args rest hp ht hk hm hpre hth hsp hne hnh
  have hrun := runHandlers_throw pre h post args hpre hth
  have hfr : handleFrame env L p msg =
      (p, Act.parsedFrame data ::
        (pre.map (fun g => Act.callListener g args) ++
          [Act.callListener h args, Act.logError])) := by
    rw [handleFrame_dispatch env L p msg data key (pre ++ h :: post) hp ht hk hm, hsp, hrun]
    simp
  refine ⟨hfr, ?_⟩
  rw [processFragments_cons_frame env L p msg rest hne hnh, hfr]

/-- Witness for the amended C2 statement at a concrete frame. -/
theorem listener_throw_caught_witness :
    handleFrame cEnv2 cListeners2 [] "inv" =
      ([], Act.parsedFrame invData ::
        [Act.callListener ⟨1, true⟩ [], Act.logError]) ∧
    processFragments cEnv2 cListeners2 [] ["inv"] =
      ((processFragments cEnv2 cListeners2 [] []).1,
       (Act.parsedFrame invData ::
         [Act.callListener ⟨1, true⟩ [], Act.logError]) ++
         (processFragments cEnv2 cListeners2 [] []).2) :=
  listener_throw_caught cEnv2 cListeners2 [] "inv" invData "foo" [] ⟨1, true⟩ [⟨2, false⟩]
    [] [] rfl rfl rfl rfl (fun g hg => absurd hg (List.not_mem_nil g)) rfl rfl
    (by decide) (by decide)

/-- C3, counterexample.  A first connection attempt (isReconnect false,
no prior session, connectionId initially null) whose negotiation
answered with a connectionId and no redirect url: the id is stored
before the WebSocket is created, so a socket error before the handshake
is only logged and the connect() promise is never rejected. -/
theorem first_attempt_error_logged_cex :
    applyNegotiation none ⟨none, none, some "abc"⟩ = some "abc" ∧
    wsOnError false (applyNegotiation none ⟨none, none, some "abc"⟩) "WebSocket Error" =
      .logOnly "WebSocket Error" :=
  ⟨rfl, rfl⟩

/-- C3, amended.  A pre-handshake socket error rejects connect() exactly
when the attempt is not a reconnect and no connectionId has been
recorded (neither from a prior session nor from the negotiation of the
current attempt); in every other case, including a first attempt whose
negotiation already assigned a connectionId, the error is only
logged. -/
theorem socket_error_reject_iff :
    ∀ (isReconnect : Bool) (cid : Option String) (msg : String),
      ((∃ m, wsOnError isReconnect cid msg = .rejectConnect m) ↔
        (isReconnect = false ∧ cid = none)) ∧
      ((isReconnect = true ∨ cid ≠ none) →
        wsOnError isReconnect cid msg = .logOnly msg) := by
  intro r cid msg
  have hlog : (r = true ∨ cid ≠ none) → wsOnError r cid msg = .logOnly msg := by
    intro h
    rcases h with h | h
    · simp [wsOnError, h]
    · have : cid.isNone = false := by
        cases cid with
        | none => exact absurd rfl h
        | some c => rfl
      simp [wsOnError, this]
  refine ⟨⟨?_, ?_⟩, hlog⟩
  · rintro ⟨m, hm⟩
    by_cases hr : r = true
    · rw [hlog (Or.inl hr)] at hm
      exact absurd hm (by simp)
    · by_cases hc : cid = none
      · exact ⟨by simpa using hr, hc⟩
      · rw [hlog (Or.inr hc)] at hm
        exact absurd hm (by simp)
  · rintro ⟨hr, hc⟩
    subst hr
    subst hc
    by_cases hInc : jsIncludes msg "non-101" = true
    · exact ⟨msg ++ " (See logs above for Status Code)", by simp [wsOnError, hInc]⟩
    · exact ⟨msg, by simp [wsOnError, hInc]⟩

/-- Witness for the amended C3 statement at concrete inputs. -/
theorem socket_error_reject_iff_witness :
    wsOnError true (some "x") "boom" = .logOnly "boom" ∧
    wsOnError false none "boom" = .rejectConnect "boom" :=
  ⟨(socket_error_reject_iff true (some "x") "boom").2 (Or.inl rfl),
   by
    rcases (socket_error_reject_iff false none "boom").1.mpr ⟨rfl, rfl⟩ with ⟨m, hm⟩
    exact hm.trans (by rw [show m = "boom" from by
      have := hm
      simp [wsOnError, show jsIncludes "boom" "non-101" = false from rfl] at this
      exact this.symm])⟩

/-- C4.  invoke with no open transport rejects immediately with the
not-connected error, sends nothing and leaves the state untouched; with
an open transport it sends exactly one Invocation frame whose id is the
rendering of the freshly incremented counter; and over any run of the
connection the ids carried by sent Invocation frames are pairwise
distinct (the counter is monotone and never reused). -/
theorem invoke_spec :
    (∀ (st : Conn) (m : String) (args : List Json), st.socketOpen = false →
      invoke st m args =
        (st, [.invokeRejected ("Cannot invoke \x27" ++ m ++ "\x27: Socket is not open.")])) ∧
    (∀ (st : Conn) (m : String) (args : List Json), st.socketOpen = true →
      invoke st m args =
        ({ st with
            invocationId := st.invocationId + 1,
            pending := st.pending ++ [idOf (st.invocationId + 1)] },
         [.sentFrame 1 m args (idOf (st.invocationId + 1))])) ∧
    (∀ (env : DispatchEnv) (st : Conn) (ops : List ConnOp),
      (sentIds (run env st ops).2).Nodup) := by
  refine ⟨?_, ?_, ?_⟩
  · intro st m args h
    simp [invoke, h]
  · intro st m args h
    simp [invoke, h]
  · intro env st ops
    exact run_sentIds_nodup env ops st

/-- Witness for C4 at concrete states. -/
theorem invoke_spec_witness :
    invoke ⟨false, 0, [], []⟩ "Foo" [] =
      (⟨false, 0, [], []⟩,
       [.invokeRejected "Cannot invoke \x27Foo\x27: Socket is not open."]) ∧
    invoke ⟨true, 0, [], []⟩ "Foo" [.num 1, .num 2] =
      (⟨true, 1, ["1"], []⟩, [.sentFrame 1 "Foo" [.num 1, .num 2] "1"]) :=
  ⟨invoke_spec.1 ⟨false, 0, [], []⟩ "Foo" [] rfl,
   invoke_spec.2.1 ⟨true, 0, [], []⟩ "Foo" [.num 1, .num 2] rfl⟩

/-- C5.  A Completion frame whose invocationId matches an outstanding
pending invocation rejects the pending promise with the error of the
frame when that field is truthy and resolves it with the result field
otherwise; in either case the entry is removed exactly once: the
matched id is gone and the multiplicity of every other id is
unchanged. -/
theorem completion_matching_pending :
    ∀ (env : DispatchEnv) (L : Listeners) (p : List String) (msg : String) (data : Json)
      (id : String),
      env.parse msg = some data →
      jnum (jget data "type") = some 3 →
      invIdKey (jget data "invocationId") = some id →
      id ∈ p →
      (jsTruthyOpt (jget data "error") = true →
        (handleFrame env L p msg).2 =
          [.parsedFrame data, .rejectPending id ((jget data "error").getD Json.null)]) ∧
      (jsTruthyOpt (jget data "error") = false →
        (handleFrame env L p msg).2 =
          [.parsedFrame data, .resolvePending id (jget data "result")]) ∧
      (handleFrame env L p msg).1 = p.filter (fun x => x != id) ∧
      id ∉ (handleFrame env L p msg).1 ∧
      (∀ x, x ≠ id → (handleFrame env L p msg).1.count x = p.count x) := by
  intro env L p msg data id hp ht hi hmem
  have h := handleFrame_completion env L p msg data id hp ht hi hmem
  rw [h]
  refine ⟨fun he => by simp [he], fun he => by simp [he], rfl, ?_, ?_⟩
  · intro hx
    have := List.of_mem_filter hx
    simp at this
  · intro x hx
    exact count_filter_ne id p x hx

/-- Witness for C5 at a concrete Completion frame. -/
theorem completion_matching_pending_witness :
    (handleFrame cEnv5 [] ["7"] "comp").2 =
      [.parsedFrame compData, .resolvePending "7" (some (Json.num 42))] ∧
    (handleFrame cEnv5 [] ["7"] "comp").1 = [] :=
  ⟨(completion_matching_pending cEnv5 [] ["7"] "comp" compData "7" rfl rfl rfl
      (by decide)).2.1 rfl,
   (completion_matching_pending cEnv5 [] ["7"] "comp" compData "7" rfl rfl rfl
      (by decide)).2.2.1⟩

/-- C6.  Losing the transport while invocations are pending rejects
every pending entry, in order, with the connection-closed error, leaves
the tracker empty, and sends nothing (no pending invocation is retried
automatically). -/
theorem transport_loss_flushes_pending :
    ∀ (env : DispatchEnv) (st : Conn),
      (step env st .opSocketClosed).1.pending = [] ∧
      (step env st .opSocketClosed).2 =
        st.pending.map (fun id => Act.rejectPending id (Json.str "Connection closed")) ∧
      sentIds (step env st .opSocketClosed).2 = [] := by
  intro env st
  refine ⟨rfl, rfl, ?_⟩
  simp [step, cleanup]

/-- C7.  Decoding one raw socket message splits the text on the record
separator 0x1E and discards empty fragments, so a socket message
holding two complete Ping frames is handled as two individual frames:
the trace records two parsed Ping frames, not one, and the state is
unchanged. -/
theorem multi_frame_ping_decode :
    ∀ (env : DispatchEnv) (st : Conn),
      env.parse "\x7b\"type\":6\x7d" = some pingJson →
      jsSplit '\x1e' "\x7b\"type\":6\x7d\x1e\x7b\"type\":6\x7d\x1e" =
        ["\x7b\"type\":6\x7d", "\x7b\"type\":6\x7d", ""] ∧
      handleRawMessage env st "\x7b\"type\":6\x7d\x1e\x7b\"type\":6\x7d\x1e" =
        (st, [.parsedFrame pingJson, .parsedFrame pingJson]) := by
  intro env st hp
  have hsplit : jsSplit '\x1e' "\x7b\"type\":6\x7d\x1e\x7b\"type\":6\x7d\x1e" =
      ["\x7b\"type\":6\x7d", "\x7b\"type\":6\x7d", ""] := rfl
  refine ⟨hsplit, ?_⟩
  have hf : ∀ p, handleFrame env st.listeners p "\x7b\"type\":6\x7d" =
      (p, [.parsedFrame pingJson]) := by
    intro p
    unfold handleFrame
    rw [hp]
    dsimp only
    rw [if_neg (by decide), if_neg (by decide)]
  unfold handleRawMessage
  rw [hsplit,
    processFragments_cons_frame env st.listeners st.pending _ _ (by decide) (by decide), hf,
    processFragments_cons_frame env st.listeners st.pending _ _ (by decide) (by decide), hf,
    processFragments_cons_empty]
  rfl

/-- Witness for C7 at a concrete environment and state. -/
theorem multi_frame_ping_decode_witness :
    handleRawMessage cEnvPing ⟨true, 0, [], []⟩ "\x7b\"type\":6\x7d\x1e\x7b\"type\":6\x7d\x1e" =
      (⟨true, 0, [], []⟩, [.parsedFrame pingJson, .parsedFrame pingJson]) :=
  (multi_frame_ping_decode cEnvPing ⟨true, 0, [], []⟩ rfl).2

/-- C8.  After on(m, cb) followed by off(m, cb), a subsequently received
Invocation frame whose target equals m in any letter casing dispatches
to cb zero times: off removes every registry entry equal to cb under
the lowercased method name, and dispatch only calls callbacks found in
the registry entry for the lowercased target of the frame. -/
theorem off_after_on_no_dispatch :
    ∀ (env : DispatchEnv) (L : Listeners) (p : List String) (msg : String) (data : Json)
      (m : String) (cb : Handler) (args : List Json),
      env.parse msg = some data →
      targetKey (jget data "target") = some (jsToLower m) →
      Act.callListener cb args ∉
        (handleFrame env (offReg (onReg L m cb) m cb) p msg).2 := by
  intro env L p msg data m cb args hp hk hmem
  obtain ⟨data2, key2, hs2, hp2, hk2, hm2, hcb⟩ :=
    handleFrame_call_mem env (offReg (onReg L m cb) m cb) p msg cb args hmem
  rw [hp] at hp2
  injection hp2 with hd
  subst hd
  rw [hk] at hk2
  injection hk2 with hkeq
  subst hkeq
  rw [off_on_get L m cb] at hm2
  injection hm2 with hhs
  subst hhs
  exact not_mem_filter_ne_self cb _ hcb

/-- Witness for C8: a frame targeting the registered method in a
different letter casing, after on then off. -/
theorem off_after_on_no_dispatch_witness :
    Act.callListener ⟨5, false⟩ [] ∉
      (handleFrame cEnv8 (offReg (onReg [] "Foo" ⟨5, false⟩) "Foo" ⟨5, false⟩) []
        "inv8").2 :=
  off_after_on_no_dispatch cEnv8 [] [] "inv8" invData8 "Foo" ⟨5, false⟩ [] rfl rfl

/-- C9.  A Completion frame whose invocationId matches no outstanding
pending invocation (including a non-string id, which can never match a
string key) is silently ignored: the pending tracker is returned
unchanged and the only trace action is the parse of the frame — no
rejection, no resolution, no logged error. -/
theorem unmatched_completion_ignored :
    ∀ (env : DispatchEnv) (L : Listeners) (p : List String) (msg : String) (data : Json),
      env.parse msg = some data →
      jnum (jget data "type") = some 3 →
      (∀ id, invIdKey (jget data "invocationId") = some id → id ∉ p) →
      handleFrame env L p msg = (p, [.parsedFrame data]) := by
  intro env L p msg data hp ht hno
  cases hi : invIdKey (jget data "invocationId") with
  | none => exact handleFrame_completion_nostring env L p msg data hp ht hi
  | some id => exact handleFrame_completion_miss env L p msg data id hp ht hi (hno id hi)

/-- Witness for C9 at a concrete unmatched Completion frame. -/
theorem unmatched_completion_ignored_witness :
    handleFrame cEnv9 [] ["1"] "comp9" = (["1"], [.parsedFrame compData9]) :=
  unmatched_completion_ignored cEnv9 [] ["1"] "comp9" compData9 rfl rfl
    (by
      intro id h
      rw [show invIdKey (jget compData9 "invocationId") = some "9" from rfl] at h
      injection h with h
      subst h
      decide)

/-- C10.  An Invocation frame without an arguments field (or with a
null one) dispatches every registered listener with the empty argument
list — the falsy field defaults to the empty array — rather than
failing: no error is logged and every listener is called once. -/
theorem missing_arguments_empty_call :
    ∀ (env : DispatchEnv) (L : Listeners) (p : List String) (msg : String) (data : Json)
      (key : String) (hs : List Handler),
      env.parse msg = some data →
      jnum (jget data "type") = some 1 →
      targetKey (jget data "target") = some key →
      mapGet L key = some hs →
      (∀ g ∈ hs, g.throws = false) →
      (jget data "arguments" = none ∨ jget data "arguments" = some Json.null) →
      handleFrame env L p msg =
        (p, Act.parsedFrame data :: hs.map (fun g => Act.callListener g [])) := by
  intro env L p msg data key hs hp ht hk hm hok hargs
  have hsp : spreadArgs (jget data "arguments") = some [] := by
    rcases hargs with h | h <;> rw [h] <;> rfl
  rw [handleFrame_dispatch env L p msg data key hs hp ht hk hm, hsp,
    runHandlers_ok hs [] hok]
  simp

/-- Witness for C10 at a concrete Invocation frame with no arguments
field. -/
theorem missing_arguments_empty_call_witness :
    handleFrame cEnv10 cL10 [] "inv10" =
      ([], [Act.parsedFrame invData10, Act.callListener ⟨3, false⟩ []]) :=
  missing_arguments_empty_call cEnv10 cL10 [] "inv10" invData10 "bar" [⟨3, false⟩]
    rfl rfl rfl rfl (by decide) (Or.inl rfl)

end SR
